import Mathlib

/-!
# EaseAix backend: request handlers over an owner-scoped store

A shallow embedding of the three route modules (`routes/profile.js`,
`routes/prescriptions.js`, `routes/reminders.js`) and of the three Mongoose
schemas they save through (`models/*.js`).

Conventions of the embedding.

* A collection is the list of its documents, in insertion order.  `findOne`
  is `List.find?`; a document is saved either as a new one (appended) or in
  place of the stored document carrying its `_id`.
* `undefined` is `none`.  A required `String` path that is unset is written
  `""`: the schema's `required` validator rejects both alike.
* A `Date` is carried as the text it was given as (creation and update
  stamps, which come from the clock, are numbers).  Whether a request text
  casts to a `Date` is `Lib.castDate`; a failed cast makes `save()` throw, so
  a save takes the outcome of the casts of the request as `castOk`.
* Request bodies carry each key at the type of its schema path.  A `Number`
  is an integer: the routes only compare numbers with bounds and copy them.
* What the environment decides is an argument of the handler: the clock
  (`now`), the identifier of a new document (`newId`), whether the store
  accepts a write (`saveOk`), whether the file system lets a file go
  (`unlinkOk`), whether the mail transport delivers (`mailOk`).
* The checks of `express-validator` that look inside a text (`isEmail`,
  `isMobilePhone`, `isISO8601`) and the calendar order of dates are the
  fields of `Lib`; `notEmpty`, `isIn`, `isInt` and `isFloat` are written out.
-/

namespace EaseAix

/-! ## Responses -/

/-- Answer of a handler: the status it sets and the payload it sends. -/
inductive Resp (α : Type) where
  /-- Status 200 with a JSON payload. -/
  | ok (payload : α)
  /-- Status 201 with the created document. -/
  | created (payload : α)
  /-- Status 400; carries the validator messages (or offending fields). -/
  | badRequest (errors : List String)
  /-- Status 404. -/
  | notFound (message : String)
  /-- Status 500, sent from a `catch` branch. -/
  | serverError (message : String)
  /-- Failure raised by the upload middleware before the handler runs. -/
  | uploadError (message : String)
  deriving DecidableEq, Repr

/-! ## Library predicates -/

/-- Text predicates of `validator.js` and the order of dates, as used by the routes. -/
structure Lib where
  /-- The `isEmail()` check. -/
  isEmail : String → Bool
  /-- The `isMobilePhone()` check. -/
  isMobilePhone : String → Bool
  /-- The `isISO8601()` check. -/
  isISO8601 : String → Bool
  /-- The cast of a text to a `Date` path succeeds (`new Date(text)` is a valid date). -/
  castDate : String → Bool
  /-- Calendar order on the dates two texts denote. -/
  dateLe : String → String → Bool
  /-- The `toLocaleDateString()` rendering of a date. -/
  toLocaleDateString : String → String
  /-- The empty text is no e-mail address. -/
  isEmail_empty : isEmail "" = false
  /-- The empty text is no ISO-8601 date. -/
  isISO8601_empty : isISO8601 "" = false

/-- Text a validator sees for a body key: `undefined` is checked as the empty text. -/
def fieldStr (v : Option String) : String := v.getD ""

/-- The `notEmpty()` check on a body key. -/
def notEmpty (v : Option String) : Bool := decide (fieldStr v ≠ "")

/-- JavaScript `x || ''` on an optional text. -/
def orEmpty (v : Option String) : String := v.getD ""

/-! ## Upload middleware (`routes/profile.js`, lines 16-41) -/

/-- Does `pat` occur in `s` as a contiguous run. -/
def includes (pat : List Char) : List Char → Bool
  | [] => pat.isEmpty
  | c :: cs => pat.isPrefixOf (c :: cs) || includes pat cs

/-- The test of the pattern `/jpeg|jpg|png/`: one of the alternatives occurs in the subject. -/
def allowedTypes (subject : List Char) : Bool :=
  includes "jpeg".data subject || includes "jpg".data subject || includes "png".data subject

/-- POSIX `path.extname`: the extension of the last segment of a path, from its
last dot on; empty when the segment has no dot, starts at its only dot, or is `..`. -/
def extname (p : String) : List Char :=
  let trimmed := p.data.reverse.dropWhile (fun c => c == '/')
  let segRev := trimmed.takeWhile (fun c => c != '/')
  let extRev := segRev.takeWhile (fun c => c != '.')
  if extRev.length == segRev.length then []
  else if (segRev.drop (extRev.length + 1)).isEmpty then []
  else if segRev == ['.', '.'] then []
  else '.' :: extRev.reverse

/-- A file part of a multipart request, as multer hands it to its callbacks. -/
structure UploadFile where
  originalname : String
  mimetype : String
  size : Nat
  deriving DecidableEq, Repr

/-- Message of the error the file filter raises. -/
def filterMessage : String := "Only .png, .jpg and .jpeg format allowed!"

/-- The `fileFilter` callback: accept when the pattern matches both the
lower-cased extension and the MIME type, otherwise raise the error. -/
def fileFilter (file : UploadFile) : Except String Bool :=
  let extOk := allowedTypes ((extname file.originalname).map Char.toLower)
  let mimeOk := allowedTypes file.mimetype.data
  if extOk && mimeOk then .ok true else .error filterMessage

/-- The `limits.fileSize` bound: 5 MB. -/
def fileSizeLimit : Nat := 5 * 1024 * 1024

/-- The `filename` callback of the disk storage. -/
def filename (now rnd : Nat) (file : UploadFile) : String :=
  "profile-" ++ (toString now ++ "-" ++ toString rnd) ++ String.mk (extname file.originalname)

/-! ## Profile (`models/Profile.js`) -/

/-- Identifier of a document or of a user. -/
abbrev ObjectId := Nat

/-- What the authentication middleware leaves in `req.user`. -/
structure AuthUser where
  userId : ObjectId
  name : Option String
  email : Option String
  deriving DecidableEq, Repr

/-- A document of the Profile collection. -/
structure Profile where
  _id : ObjectId
  user : ObjectId
  name : String
  email : String
  phone : Option String
  profileImage : String
  age : Option Int
  gender : Option String
  bloodGroup : Option String
  height : Option Int
  weight : Option Int
  address : Option String
  city : Option String
  province : Option String
  cnic : Option String
  medicalConditions : Option String
  currentMedications : Option String
  pastSurgeries : Option String
  foodAllergies : Option String
  drugAllergies : Option String
  otherAllergies : Option String
  emergencyContactName : Option String
  emergencyContactRelationship : Option String
  emergencyContactPhone : Option String
  createdAt : Nat
  updatedAt : Nat
  deriving DecidableEq, Repr

/-- The sentinel path of the schema default for `profileImage`. -/
def defaultImage : String := "/default-profile.png"

/-- Values of the `gender` enum. -/
def genders : List String := ["Male", "Female", "Other"]

/-- Values of the `bloodGroup` enum. -/
def bloodGroups : List String := ["A+", "A-", "B+", "B-", "AB+", "AB-", "O+", "O-"]

/-- An enum path accepts an unset value or a listed one. -/
def enumOk (allowed : List String) (v : Option String) : Bool :=
  match v with
  | none => true
  | some s => decide (s ∈ allowed)

/-- Schema validation of a Profile: `name` and `email` are required (a required
text must be non-empty), `gender` and `bloodGroup` are enums. -/
def profileValid (p : Profile) : Bool :=
  decide (p.name ≠ "") && decide (p.email ≠ "") &&
    enumOk genders p.gender && enumOk bloodGroups p.bloodGroup

/-- The profile records and the files of the upload directory; a file is named
by its path below the application root, the way `profileImage` names it. -/
structure ProfileState where
  profiles : List Profile
  files : List String
  deriving DecidableEq, Repr

/-- The query `Profile.findOne({ user })`. -/
def findProfile (ps : List Profile) (user : ObjectId) : Option Profile :=
  ps.find? (fun p => p.user == user)

/-- Writing a document back in place of the stored one with its `_id`. -/
def replaceProfile (ps : List Profile) (p : Profile) : List Profile :=
  ps.map (fun q => if q._id = p._id then p else q)

/-- The call `profile.save()`: validate, run the pre-save hook that stamps
`updatedAt`, then insert (`isNew`) or write back.  `none` is a thrown error. -/
def saveProfile (ps : List Profile) (p : Profile) (isNew : Bool) (now : Nat) (saveOk : Bool) :
    Option (Profile × List Profile) :=
  if profileValid p && saveOk then
    let doc := { p with updatedAt := now }
    some (doc, if isNew then ps ++ [doc] else replaceProfile ps doc)
  else none

/-! ## Profile routes (`routes/profile.js`) -/

/-- The document `router.get('/')` builds when the owner has none. -/
def newProfileOnGet (u : AuthUser) (newId now : Nat) : Profile :=
  { _id := newId, user := u.userId, name := orEmpty u.name, email := orEmpty u.email,
    phone := some "", profileImage := defaultImage,
    age := none, gender := none, bloodGroup := none, height := none, weight := none,
    address := none, city := none, province := none, cnic := none,
    medicalConditions := some "", currentMedications := some "", pastSurgeries := some "",
    foodAllergies := some "", drugAllergies := some "", otherAllergies := some "",
    emergencyContactName := some "", emergencyContactRelationship := some "",
    emergencyContactPhone := some "", createdAt := now, updatedAt := now }

/-- Handler `router.get('/')`: find the owner profile or create it. -/
def getProfile (s : ProfileState) (u : AuthUser) (newId now : Nat) (saveOk : Bool) :
    Resp Profile × ProfileState :=
  match findProfile s.profiles u.userId with
  | some profile => (.ok profile, s)
  | none =>
    match saveProfile s.profiles (newProfileOnGet u newId now) true now saveOk with
    | some (doc, ps) => (.ok doc, { s with profiles := ps })
    | none => (.serverError "Failed to create profile", s)

/-- Body of `router.put('/')`: every key is optional.  The last three keys are
ones a request may carry that `updateFields` does not list. -/
structure ProfileBody where
  name : Option String := none
  email : Option String := none
  phone : Option String := none
  age : Option Int := none
  gender : Option String := none
  bloodGroup : Option String := none
  height : Option Int := none
  weight : Option Int := none
  address : Option String := none
  city : Option String := none
  province : Option String := none
  cnic : Option String := none
  medicalConditions : Option String := none
  currentMedications : Option String := none
  pastSurgeries : Option String := none
  foodAllergies : Option String := none
  drugAllergies : Option String := none
  otherAllergies : Option String := none
  emergencyContactName : Option String := none
  emergencyContactRelationship : Option String := none
  emergencyContactPhone : Option String := none
  profileImage : Option String := none
  user : Option ObjectId := none
  createdAt : Option Nat := none
  deriving DecidableEq, Repr

/-- One `body(key).optional().<check>` of a chain: no error when the key is absent. -/
def optionalCheck {α : Type} (v : Option α) (check : α → Bool) (msg : String) : List String :=
  match v with
  | none => []
  | some a => if check a then [] else [msg]

/-- The validation chain of `router.put('/')`, in order; the list of messages raised. -/
def profileErrors (L : Lib) (b : ProfileBody) : List String :=
  optionalCheck b.name (fun s => decide (s ≠ "")) "Name cannot be empty" ++
  optionalCheck b.email L.isEmail "Valid email is required" ++
  optionalCheck b.phone L.isMobilePhone "Valid phone number is required" ++
  optionalCheck b.age (fun a => decide (0 ≤ a ∧ a ≤ 120)) "Valid age is required" ++
  optionalCheck b.gender (fun g => decide (g ∈ genders)) "Valid gender is required" ++
  optionalCheck b.bloodGroup (fun g => decide (g ∈ bloodGroups)) "Valid blood group is required" ++
  optionalCheck b.height (fun h => decide (0 ≤ h)) "Valid height is required" ++
  optionalCheck b.weight (fun w => decide (0 ≤ w)) "Valid weight is required"

/-- The document `router.put('/')` builds when the owner has none. -/
def newProfileOnPut (u : AuthUser) (newId now : Nat) : Profile :=
  { _id := newId, user := u.userId, name := orEmpty u.name, email := orEmpty u.email,
    phone := some "", profileImage := defaultImage,
    age := none, gender := none, bloodGroup := none, height := none, weight := none,
    address := none, city := none, province := none, cnic := none,
    medicalConditions := none, currentMedications := none, pastSurgeries := none,
    foodAllergies := none, drugAllergies := none, otherAllergies := none,
    emergencyContactName := none, emergencyContactRelationship := none,
    emergencyContactPhone := none, createdAt := now, updatedAt := now }

/-- Assignment `profile[field] = req.body[field]` guarded by `!== undefined`. -/
def assignField {α : Type} (input : Option α) (current : Option α) : Option α :=
  match input with
  | some v => some v
  | none => current

/-- The `updateFields.forEach` loop: copy the 21 listed keys that are present. -/
def mergeFields (p : Profile) (b : ProfileBody) : Profile :=
  { p with
    name := b.name.getD p.name
    email := b.email.getD p.email
    phone := assignField b.phone p.phone
    age := assignField b.age p.age
    gender := assignField b.gender p.gender
    bloodGroup := assignField b.bloodGroup p.bloodGroup
    height := assignField b.height p.height
    weight := assignField b.weight p.weight
    address := assignField b.address p.address
    city := assignField b.city p.city
    province := assignField b.province p.province
    cnic := assignField b.cnic p.cnic
    medicalConditions := assignField b.medicalConditions p.medicalConditions
    currentMedications := assignField b.currentMedications p.currentMedications
    pastSurgeries := assignField b.pastSurgeries p.pastSurgeries
    foodAllergies := assignField b.foodAllergies p.foodAllergies
    drugAllergies := assignField b.drugAllergies p.drugAllergies
    otherAllergies := assignField b.otherAllergies p.otherAllergies
    emergencyContactName := assignField b.emergencyContactName p.emergencyContactName
    emergencyContactRelationship :=
      assignField b.emergencyContactRelationship p.emergencyContactRelationship
    emergencyContactPhone := assignField b.emergencyContactPhone p.emergencyContactPhone }

/-- Handler `router.put('/')`: validate, find or build the profile, merge, save. -/
def putProfile (L : Lib) (s : ProfileState) (u : AuthUser) (b : ProfileBody)
    (newId now : Nat) (saveOk : Bool) : Resp Profile × ProfileState :=
  match profileErrors L b with
  | msg :: _ => (.badRequest [msg], s)
  | [] =>
    let found := findProfile s.profiles u.userId
    let profile := found.getD (newProfileOnPut u newId now)
    match saveProfile s.profiles (mergeFields profile b) found.isNone now saveOk with
    | some (doc, ps) => (.ok doc, { s with profiles := ps })
    | none => (.serverError "Failed to update profile", s)

/-- The path the image route records for a stored file. -/
def imagePath (fname : String) : String := "/uploads/profile-images/" ++ fname

/-- The old-image clean-up of `router.post('/image')`: when the recorded path
is truthy and the file exists, unlink it.  `none` is the error `unlinkSync` throws. -/
def removeOldImage (files : List String) (old : String) (unlinkOk : Bool) :
    Option (List String) :=
  if old ≠ "" then
    if old ∈ files then
      if unlinkOk then some (files.filter (fun f => f != old)) else none
    else some files
  else some files

/-- Handler `router.post('/image')`, run after the upload middleware; `file`
is the name multer stored the upload under (`req.file.filename`), if any. -/
def postImage (s : ProfileState) (u : AuthUser) (file : Option String) (now : Nat)
    (unlinkOk saveOk : Bool) : Resp String × ProfileState :=
  match file with
  | none => (.badRequest ["No file uploaded"], s)
  | some fname =>
    match findProfile s.profiles u.userId with
    | none => (.notFound "Profile not found", s)
    | some profile =>
      match removeOldImage s.files profile.profileImage unlinkOk with
      | none => (.serverError "Failed to upload profile image", s)
      | some files =>
        match saveProfile s.profiles { profile with profileImage := imagePath fname }
            false now saveOk with
        | some (_, ps) => (.ok (imagePath fname), { profiles := ps, files := files })
        | none => (.serverError "Failed to upload profile image", { s with files := files })

/-- The middleware `upload.single('profileImage')`: filter the file, bound its
size (a file that reaches the limit is refused), write it into the upload
directory under a generated name. -/
def uploadSingle (files : List String) (upload : Option UploadFile) (now rnd : Nat) :
    Except String (List String × Option String) :=
  match upload with
  | none => .ok (files, none)
  | some file =>
    match fileFilter file with
    | .error msg => .error msg
    | .ok _ =>
      if file.size ≥ fileSizeLimit then .error "File too large"
      else
        let fname := filename now rnd file
        .ok (imagePath fname :: files.filter (fun f => f != imagePath fname), some fname)

/-- The whole route `POST /image`: upload middleware, then the handler. -/
def replaceImage (s : ProfileState) (u : AuthUser) (upload : Option UploadFile)
    (now rnd : Nat) (unlinkOk saveOk : Bool) : Resp String × ProfileState :=
  match uploadSingle s.files upload now rnd with
  | .error msg => (.uploadError msg, s)
  | .ok (files, file) => postImage { s with files := files } u file now unlinkOk saveOk

/-! ## Prescription (`models/Prescription.js`, `routes/prescriptions.js`) -/

/-- A document of the Prescription collection. -/
structure Prescription where
  _id : ObjectId
  user : ObjectId
  medicationName : String
  doctorName : String
  patientName : String
  date : String
  dosage : String
  instructions : String
  sideEffects : Option String
  createdAt : Nat
  updatedAt : Nat
  deriving DecidableEq, Repr

/-- Body of the prescription create and update routes. -/
structure PrescriptionBody where
  medicationName : Option String := none
  doctorName : Option String := none
  patientName : Option String := none
  date : Option String := none
  dosage : Option String := none
  instructions : Option String := none
  sideEffects : Option String := none
  deriving DecidableEq, Repr

/-- One check of a validation chain: the offending field when the check fails. -/
def check (passes : Bool) (field : String) : List String :=
  if passes then [] else [field]

/-- The validation chain shared by the prescription create and update routes. -/
def prescriptionErrors (L : Lib) (b : PrescriptionBody) : List String :=
  check (notEmpty b.medicationName) "medicationName" ++
  check (notEmpty b.doctorName) "doctorName" ++
  check (notEmpty b.patientName) "patientName" ++
  check (L.isISO8601 (fieldStr b.date)) "date" ++
  check (notEmpty b.dosage) "dosage" ++
  check (notEmpty b.instructions) "instructions"

/-- The required validators of the Prescription schema: the six required paths
are set.  The cast of the request text to the `Date` path is checked by
`savePrescription` through its `castOk`. -/
def prescriptionValid (p : Prescription) : Bool :=
  decide (p.medicationName ≠ "") && decide (p.doctorName ≠ "") &&
    decide (p.patientName ≠ "") && decide (p.date ≠ "") &&
    decide (p.dosage ≠ "") && decide (p.instructions ≠ "")

/-- The call `prescription.save()`: validate (a request value that failed its
cast, `castOk = false`, is a validation error, as is an unset required path),
stamp `updatedAt`, insert or write back.  `none` is a thrown error. -/
def savePrescription (ps : List Prescription) (p : Prescription) (isNew : Bool) (now : Nat)
    (castOk saveOk : Bool) : Option (Prescription × List Prescription) :=
  if castOk && prescriptionValid p && saveOk then
    let doc := { p with updatedAt := now }
    some (doc, if isNew then ps ++ [doc] else ps.map (fun q => if q._id = doc._id then doc else q))
  else none

/-- The query `Prescription.findOne({ _id, user })`. -/
def findPrescription (ps : List Prescription) (id user : ObjectId) : Option Prescription :=
  ps.find? (fun p => p._id == id && p.user == user)

/-- Handler `router.get('/')`: the owner prescriptions, latest date first. -/
def listPrescriptions (L : Lib) (ps : List Prescription) (user : ObjectId) : List Prescription :=
  (ps.filter (fun p => p.user == user)).insertionSort (fun a b => L.dateLe b.date a.date = true)

/-- Handler `router.post('/')`: validate, build the document (the date text
is cast to the `Date` path), save it. -/
def createPrescription (L : Lib) (ps : List Prescription) (user : ObjectId)
    (b : PrescriptionBody) (newId now : Nat) (saveOk : Bool) :
    Resp Prescription × List Prescription :=
  match prescriptionErrors L b with
  | e :: es => (.badRequest (e :: es), ps)
  | [] =>
    let prescription : Prescription :=
      { _id := newId, user := user,
        medicationName := fieldStr b.medicationName, doctorName := fieldStr b.doctorName,
        patientName := fieldStr b.patientName, date := fieldStr b.date,
        dosage := fieldStr b.dosage, instructions := fieldStr b.instructions,
        sideEffects := some (b.sideEffects.getD "None reported"),
        createdAt := now, updatedAt := now }
    match savePrescription ps prescription true now (L.castDate (fieldStr b.date)) saveOk with
    | some (doc, ps1) => (.created doc, ps1)
    | none => (.serverError "Server error", ps)

/-- Handler `router.put('/:id')`: validate, fetch by id and owner, overwrite, save. -/
def updatePrescription (L : Lib) (ps : List Prescription) (id user : ObjectId)
    (b : PrescriptionBody) (now : Nat) (saveOk : Bool) :
    Resp Prescription × List Prescription :=
  match prescriptionErrors L b with
  | e :: es => (.badRequest (e :: es), ps)
  | [] =>
    match findPrescription ps id user with
    | none => (.notFound "Prescription not found", ps)
    | some prescription =>
      let edited : Prescription :=
        { prescription with
          medicationName := fieldStr b.medicationName, doctorName := fieldStr b.doctorName,
          patientName := fieldStr b.patientName, date := fieldStr b.date,
          dosage := fieldStr b.dosage, instructions := fieldStr b.instructions,
          sideEffects := b.sideEffects }
      match savePrescription ps edited false now (L.castDate (fieldStr b.date)) saveOk with
      | some (doc, ps1) => (.ok doc, ps1)
      | none => (.serverError "Server error", ps)

/-- Handler `router.delete('/:id')`: `findOneAndDelete({ _id, user })`. -/
def deletePrescription (ps : List Prescription) (id user : ObjectId) :
    Resp String × List Prescription :=
  match findPrescription ps id user with
  | none => (.notFound "Prescription not found", ps)
  | some prescription => (.ok "Prescription deleted", ps.erase prescription)

/-- An outgoing message handed to the mail transport. -/
structure Mail where
  recipient : String
  subject : String
  html : List String
  deriving DecidableEq, Repr

/-- The `mailOptions` the share route composes; an unset `sideEffects` reads as
the schema default. -/
def mailOptions (L : Lib) (p : Prescription) (recipientEmail : String) : Mail :=
  { recipient := recipientEmail
    subject := "Prescription for " ++ p.medicationName
    html := ["Prescription Details", "Medication: " ++ p.medicationName,
      "Doctor: " ++ p.doctorName, "Patient: " ++ p.patientName,
      "Date: " ++ L.toLocaleDateString p.date, "Dosage: " ++ p.dosage,
      "Instructions: " ++ p.instructions,
      "Side Effects: " ++ p.sideEffects.getD "None reported"] }

/-- Handler `router.post('/:id/share')`: validate the recipient, fetch by id and
owner, compose and send.  The last component is the message handed to the transport. -/
def sharePrescription (L : Lib) (ps : List Prescription) (id user : ObjectId)
    (recipientEmail : Option String) (mailOk : Bool) :
    Resp String × List Prescription × Option Mail :=
  if L.isEmail (fieldStr recipientEmail) then
    match findPrescription ps id user with
    | none => (.notFound "Prescription not found", ps, none)
    | some prescription =>
      let mail := mailOptions L prescription (fieldStr recipientEmail)
      if mailOk then (.ok "Prescription shared successfully", ps, some mail)
      else (.serverError "Server error", ps, some mail)
  else (.badRequest ["recipientEmail"], ps, none)

/-! ## Reminder (`models/Reminder.js`, `routes/reminders.js`) -/

/-- Values of the `status` enum. -/
inductive Status where
  | pending
  | taken
  | missed
  deriving DecidableEq, Repr

/-- A document of the Reminder collection. -/
structure Reminder where
  _id : ObjectId
  user : ObjectId
  medication : String
  dosage : String
  time : String
  date : String
  notes : Option String
  status : Status
  takenAt : Option Nat
  createdAt : Nat
  deriving DecidableEq, Repr

/-- Body of the reminder create and update routes. -/
structure ReminderBody where
  medication : Option String := none
  dosage : Option String := none
  time : Option String := none
  date : Option String := none
  notes : Option String := none
  deriving DecidableEq, Repr

/-- The validation chain shared by the reminder create and update routes. -/
def reminderErrors (L : Lib) (b : ReminderBody) : List String :=
  check (notEmpty b.medication) "medication" ++
  check (notEmpty b.dosage) "dosage" ++
  check (notEmpty b.time) "time" ++
  check (L.isISO8601 (fieldStr b.date)) "date"

/-- The required validators of the Reminder schema: the four required paths are
set.  The cast of a request text to the `Date` path is checked by
`saveReminder` through its `castOk`; a stored date is a `Date` already. -/
def reminderValid (r : Reminder) : Bool :=
  decide (r.medication ≠ "") && decide (r.dosage ≠ "") &&
    decide (r.time ≠ "") && decide (r.date ≠ "")

/-- The call `reminder.save()`: validate (a request value that failed its cast,
`castOk = false`, is a validation error, as is an unset required path), then
insert or write back (no hook).  `none` is a thrown error. -/
def saveReminder (rs : List Reminder) (r : Reminder) (isNew : Bool) (castOk saveOk : Bool) :
    Option (Reminder × List Reminder) :=
  if castOk && reminderValid r && saveOk then
    some (r, if isNew then rs ++ [r] else rs.map (fun q => if q._id = r._id then r else q))
  else none

/-- The query `Reminder.findOne({ _id, user })`. -/
def findReminder (rs : List Reminder) (id user : ObjectId) : Option Reminder :=
  rs.find? (fun r => r._id == id && r.user == user)

/-- Sort order of the reminder list: date ascending, then time ascending. -/
def reminderLe (L : Lib) (a b : Reminder) : Bool :=
  L.dateLe a.date b.date && (!(L.dateLe b.date a.date) || decide (¬ b.time < a.time))

/-- Handler `router.get('/')`: the owner reminders by date, then time. -/
def listReminders (L : Lib) (rs : List Reminder) (user : ObjectId) : List Reminder :=
  (rs.filter (fun r => r.user == user)).insertionSort (fun a b => reminderLe L a b = true)

/-- Handler `router.post('/')`: validate, build the document (the date text
is cast to the `Date` path), save it. -/
def createReminder (L : Lib) (rs : List Reminder) (user : ObjectId) (b : ReminderBody)
    (newId now : Nat) (saveOk : Bool) : Resp Reminder × List Reminder :=
  match reminderErrors L b with
  | e :: es => (.badRequest (e :: es), rs)
  | [] =>
    let reminder : Reminder :=
      { _id := newId, user := user, medication := fieldStr b.medication,
        dosage := fieldStr b.dosage, time := fieldStr b.time, date := fieldStr b.date,
        notes := b.notes, status := .pending, takenAt := none, createdAt := now }
    match saveReminder rs reminder true (L.castDate (fieldStr b.date)) saveOk with
    | some (doc, rs1) => (.created doc, rs1)
    | none => (.serverError "Server error", rs)

/-- Handler `router.put('/:id')`: validate, fetch by id and owner, overwrite, save. -/
def updateReminder (L : Lib) (rs : List Reminder) (id user : ObjectId) (b : ReminderBody)
    (saveOk : Bool) : Resp Reminder × List Reminder :=
  match reminderErrors L b with
  | e :: es => (.badRequest (e :: es), rs)
  | [] =>
    match findReminder rs id user with
    | none => (.notFound "Reminder not found", rs)
    | some reminder =>
      let edited : Reminder :=
        { reminder with
          medication := fieldStr b.medication, dosage := fieldStr b.dosage,
          time := fieldStr b.time, date := fieldStr b.date, notes := b.notes }
      match saveReminder rs edited false (L.castDate (fieldStr b.date)) saveOk with
      | some (doc, rs1) => (.ok doc, rs1)
      | none => (.serverError "Server error", rs)

/-- Handler `router.put('/:id/taken')`: fetch by id and owner, set status and
time (a `Date` object, nothing to cast), save. -/
def markTaken (rs : List Reminder) (id user : ObjectId) (now : Nat) (saveOk : Bool) :
    Resp Reminder × List Reminder :=
  match findReminder rs id user with
  | none => (.notFound "Reminder not found", rs)
  | some reminder =>
    match saveReminder rs { reminder with status := .taken, takenAt := some now } false true
        saveOk with
    | some (doc, rs1) => (.ok doc, rs1)
    | none => (.serverError "Server error", rs)

/-- Handler `router.delete('/:id')`: `findOneAndDelete({ _id, user })`. -/
def deleteReminder (rs : List Reminder) (id user : ObjectId) : Resp String × List Reminder :=
  match findReminder rs id user with
  | none => (.notFound "Reminder not found", rs)
  | some reminder => (.ok "Reminder deleted", rs.erase reminder)

/-! ## A library instance for evaluating the handlers -/

/-- The shape `YYYY-MM-DD` of a calendar date. -/
def calendarShape (s : String) : Bool :=
  match s.data with
  | [y1, y2, y3, y4, '-', m1, m2, '-', d1, d2] =>
    [y1, y2, y3, y4, m1, m2, d1, d2].all Char.isDigit
  | _ => false

/-- The shape `YYYY-Www-D` of an ISO-8601 week date. -/
def weekShape (s : String) : Bool :=
  match s.data with
  | [y1, y2, y3, y4, '-', 'W', w1, w2, '-', d] => [y1, y2, y3, y4, w1, w2, d].all Char.isDigit
  | _ => false

/-- A small stand-in for the library checks, used to run handlers on concrete
requests: an e-mail has an `@`, a phone number is made of digits, an ISO-8601
date has the calendar or the week shape, of which only the calendar shape
casts to a `Date`, and calendar dates compare as texts. -/
def sampleLib : Lib where
  isEmail := fun s => s.data.contains '@'
  isMobilePhone := fun s => !s.data.isEmpty && s.data.all Char.isDigit
  isISO8601 := fun s => calendarShape s || weekShape s
  castDate := calendarShape
  dateLe := fun a b => decide (¬ b < a)
  toLocaleDateString := fun s => s
  isEmail_empty := rfl
  isISO8601_empty := rfl

/-! ## Runs of the profile routes -/

/-- A request to one of the three profile routes, with what the environment
decides while it is served. -/
inductive Req where
  /-- A request `GET /`. -/
  | get (u : AuthUser) (newId now : Nat) (saveOk : Bool)
  /-- A request `PUT /`. -/
  | put (u : AuthUser) (b : ProfileBody) (newId now : Nat) (saveOk : Bool)
  /-- A request `POST /image`. -/
  | image (u : AuthUser) (upload : Option UploadFile) (now rnd : Nat) (unlinkOk saveOk : Bool)
  deriving DecidableEq, Repr

/-- State after serving one request. -/
def step (L : Lib) (s : ProfileState) : Req → ProfileState
  | .get u newId now saveOk => (getProfile s u newId now saveOk).2
  | .put u b newId now saveOk => (putProfile L s u b newId now saveOk).2
  | .image u upload now rnd unlinkOk saveOk => (replaceImage s u upload now rnd unlinkOk saveOk).2

/-- State after serving a sequence of requests, one after the other. -/
def run (L : Lib) (s : ProfileState) (reqs : List Req) : ProfileState :=
  reqs.foldl (step L) s

/-- Every profile points at the sentinel or at a file that exists. -/
def imageRefOk (s : ProfileState) : Prop :=
  ∀ p ∈ s.profiles, p.profileImage = defaultImage ∨ p.profileImage ∈ s.files

instance (s : ProfileState) : Decidable (imageRefOk s) := by
  unfold imageRefOk; infer_instance

/-- An image request is benign at a state when its upload, if any, is stored
under a name no file of the state carries, and its record save is accepted. -/
def Req.benign (s : ProfileState) : Req → Prop
  | .image _ (some file) now rnd _ saveOk =>
    saveOk = true ∧ imagePath (filename now rnd file) ∉ s.files
  | _ => True

instance (s : ProfileState) (r : Req) : Decidable (r.benign s) := by
  unfold Req.benign; split <;> infer_instance

/-- Every image request of the run is benign at the state it is served in. -/
def benignRun (L : Lib) : ProfileState → List Req → Prop
  | _, [] => True
  | s, r :: rs => r.benign s ∧ benignRun L (step L s r) rs

instance (L : Lib) : ∀ (s : ProfileState) (reqs : List Req), Decidable (benignRun L s reqs)
  | _, [] => by unfold benignRun; infer_instance
  | s, r :: rs => by
    unfold benignRun
    have := instDecidableBenignRun L (step L s r) rs
    infer_instance

/-! ## Runs of the reminder routes -/

/-- A request to one of the four reminder routes that write. -/
inductive ReminderReq where
  /-- A request `POST /`. -/
  | create (user : ObjectId) (b : ReminderBody) (newId now : Nat) (saveOk : Bool)
  /-- A request `PUT /:id`. -/
  | update (id user : ObjectId) (b : ReminderBody) (saveOk : Bool)
  /-- A request `PUT /:id/taken`. -/
  | taken (id user : ObjectId) (now : Nat) (saveOk : Bool)
  /-- A request `DELETE /:id`. -/
  | delete (id user : ObjectId)
  deriving DecidableEq, Repr

/-- Reminder collection after serving one request. -/
def reminderStep (L : Lib) (rs : List Reminder) : ReminderReq → List Reminder
  | .create user b newId now saveOk => (createReminder L rs user b newId now saveOk).2
  | .update id user b saveOk => (updateReminder L rs id user b saveOk).2
  | .taken id user now saveOk => (markTaken rs id user now saveOk).2
  | .delete id user => (deleteReminder rs id user).2

/-- Reminder collection after serving a sequence of requests. -/
def reminderRun (L : Lib) (rs : List Reminder) (reqs : List ReminderReq) : List Reminder :=
  reqs.foldl (reminderStep L) rs

/-- The reminder invariant: `takenAt` is absent unless the status is `taken`. -/
def takenAtOk (r : Reminder) : Prop := r.takenAt ≠ none → r.status = .taken

/-! ## Words of the specification -/

/-- A required key is missing or empty. -/
def missingOrEmpty (v : Option String) : Prop := v = none ∨ v = some ""

/-- The date key is not an ISO-8601 date: it is missing, or its text fails the check. -/
def notIsoDate (L : Lib) (v : Option String) : Prop := ∀ d, v = some d → L.isISO8601 d = false

/-- A create request for a prescription that validation must refuse. -/
def invalidPrescription (L : Lib) (b : PrescriptionBody) : Prop :=
  missingOrEmpty b.medicationName ∨ missingOrEmpty b.doctorName ∨
    missingOrEmpty b.patientName ∨ missingOrEmpty b.dosage ∨
    missingOrEmpty b.instructions ∨ notIsoDate L b.date

/-- Identifiers are unique within a collection, as the store index on `_id` ensures. -/
def uniqueIds {α : Type} (id : α → ObjectId) (docs : List α) : Prop := (docs.map id).Nodup

/-! ## Sample data -/

/-- An owner whose token carries a name and an e-mail address. -/
def alice : AuthUser := { userId := 1, name := some "Alice", email := some "alice@example.com" }

/-- An owner whose token carries the user id only. -/
def bob : AuthUser := { userId := 2, name := none, email := none }

/-- The profile of `alice` after an image upload. -/
def aliceProfile : Profile :=
  { newProfileOnGet alice 10 5 with profileImage := imagePath "profile-1-1.png" }

/-- A state holding the profile of `alice`, her image and a freshly stored upload. -/
def aliceState : ProfileState :=
  { profiles := [aliceProfile],
    files := [imagePath "profile-2-2.png", imagePath "profile-1-1.png"] }

/-- An upload the filter accepts. -/
def pngUpload : UploadFile := { originalname := "me.png", mimetype := "image/png", size := 2048 }

/-- The body of the end-to-end example of the specification. -/
def amoxicillin : PrescriptionBody :=
  { medicationName := some "Amoxicillin", doctorName := some "Dr. Khan",
    patientName := some "A. Ali", date := some "2024-01-10", dosage := some "500mg",
    instructions := some "twice daily" }

/-- The prescription the example body creates for owner 1 at time 3. -/
def amoxicillinDoc : Prescription :=
  { _id := 40, user := 1, medicationName := "Amoxicillin", doctorName := "Dr. Khan",
    patientName := "A. Ali", date := "2024-01-10", dosage := "500mg",
    instructions := "twice daily", sideEffects := some "None reported",
    createdAt := 3, updatedAt := 3 }

/-- A reminder of owner 1 that an outside process has marked missed. -/
def missedReminder : Reminder :=
  { _id := 50, user := 1, medication := "Amoxicillin", dosage := "500mg", time := "08:00",
    date := "2024-01-11", notes := none, status := .missed, takenAt := none, createdAt := 4 }

/-- The example body with its date written as an ISO-8601 week date. -/
def weekDated : PrescriptionBody := { amoxicillin with date := some "2024-W01-1" }

/-- A body for the reminder create and update routes. -/
def eveningDose : ReminderBody :=
  { medication := some "Amoxicillin", dosage := some "500mg", time := some "20:00",
    date := some "2024-01-11" }


/-- What every state reached by benign runs satisfies: image references are
live, two records that share a stored image are one document, and every
stored record passed schema validation. -/
structure ProfileInv (s : ProfileState) : Prop where
  refs : imageRefOk s
  owned : ∀ p ∈ s.profiles, ∀ q ∈ s.profiles,
    p.profileImage = q.profileImage → p.profileImage = defaultImage ∨ p._id = q._id
  valid : ∀ p ∈ s.profiles, profileValid p = true

/-! ## Lemmas on the profile store -/

theorem findProfile_some {ps : List Profile} {user : ObjectId} {P : Profile}
    (h : findProfile ps user = some P) : P ∈ ps ∧ P.user = user := by
  unfold findProfile at h
  refine ⟨List.mem_of_find?_eq_some h, ?_⟩
  have := List.find?_some h
  simpa using this

theorem mem_replaceProfile {ps : List Profile} {d q : Profile}
    (h : q ∈ replaceProfile ps d) : q = d ∨ (q ∈ ps ∧ q._id ≠ d._id) := by
  unfold replaceProfile at h
  obtain ⟨r, hr, hq⟩ := List.mem_map.1 h
  by_cases hid : r._id = d._id
  · left; simpa [hid] using hq.symm
  · right
    have : q = r := by simpa [hid] using hq.symm
    subst this
    exact ⟨hr, hid⟩

theorem findProfile_replaceProfile {ps : List Profile} {user : ObjectId} {P d : Profile}
    (h : findProfile ps user = some P) (hid : d._id = P._id) (hu : d.user = user) :
    findProfile (replaceProfile ps d) user = some d := by
  induction ps with
  | nil => simp [findProfile] at h
  | cons q rest ih =>
    simp only [findProfile, List.find?_cons] at h
    show findProfile ((if q._id = d._id then d else q) :: replaceProfile rest d) user = some d
    simp only [findProfile, List.find?_cons]
    by_cases hqd : q._id = d._id
    · simp [hqd, hu]
    · rw [if_neg hqd]
      cases hb : (q.user == user) with
      | true =>
        rw [hb] at h
        simp only [Option.some.injEq] at h
        subst h
        exact absurd hid.symm hqd
      | false =>
        rw [hb] at h
        exact ih h

theorem saveProfile_some {ps ps1 : List Profile} {p doc : Profile} {isNew saveOk : Bool}
    {now : Nat} (h : saveProfile ps p isNew now saveOk = some (doc, ps1)) :
    profileValid p = true ∧ saveOk = true ∧ doc = { p with updatedAt := now } ∧
      ps1 = if isNew then ps ++ [doc] else replaceProfile ps doc := by
  unfold saveProfile at h
  by_cases hv : (profileValid p && saveOk) = true
  · rw [if_pos hv] at h
    simp only [Option.some.injEq, Prod.mk.injEq] at h
    obtain ⟨h1, h2⟩ := h
    simp only [Bool.and_eq_true] at hv
    subst h1
    exact ⟨hv.1, hv.2, rfl, h2.symm⟩
  · rw [if_neg hv] at h
    exact absurd h (by simp)

theorem saveProfile_ok (ps : List Profile) (p : Profile) (isNew : Bool) (now : Nat)
    (hv : profileValid p = true) :
    saveProfile ps p isNew now true
      = some ({ p with updatedAt := now },
          if isNew then ps ++ [{ p with updatedAt := now }]
          else replaceProfile ps { p with updatedAt := now }) := by
  simp [saveProfile, hv]

theorem imagePath_ne_default (fname : String) : imagePath fname ≠ defaultImage := by
  intro h
  have := congrArg String.data h
  simp [imagePath, defaultImage] at this

/-! ## The profile invariant along benign runs -/

theorem ProfileInv.more_files {s : ProfileState} (h : ProfileInv s) (files : List String)
    (hsub : ∀ f ∈ s.files, f ∈ files) : ProfileInv { s with files := files } where
  refs := fun p hp => (h.refs p hp).imp id (hsub _)
  owned := h.owned
  valid := h.valid

theorem ProfileInv.append_default {s : ProfileState} (h : ProfileInv s) (doc : Profile)
    (himg : doc.profileImage = defaultImage) (hv : profileValid doc = true) :
    ProfileInv { s with profiles := s.profiles ++ [doc] } where
  refs := by
    intro p hp
    rcases List.mem_append.1 hp with hp | hp
    · exact h.refs p hp
    · left; rw [List.mem_singleton.1 hp]; exact himg
  owned := by
    intro p hp q hq hpq
    rcases List.mem_append.1 hp with hp | hp
    · rcases List.mem_append.1 hq with hq | hq
      · exact h.owned p hp q hq hpq
      · left; rw [hpq, List.mem_singleton.1 hq]; exact himg
    · left; rw [List.mem_singleton.1 hp]; exact himg
  valid := by
    intro p hp
    rcases List.mem_append.1 hp with hp | hp
    · exact h.valid p hp
    · rw [List.mem_singleton.1 hp]; exact hv

theorem ProfileInv.replace_same_image {s : ProfileState} (h : ProfileInv s) {P doc : Profile}
    (hP : P ∈ s.profiles) (himg : doc.profileImage = P.profileImage) (hid : doc._id = P._id)
    (hv : profileValid doc = true) :
    ProfileInv { s with profiles := replaceProfile s.profiles doc } where
  refs := by
    intro p hp
    rcases mem_replaceProfile hp with hpd | ⟨hp1, _⟩
    · rw [hpd, himg]; exact h.refs P hP
    · exact h.refs p hp1
  owned := by
    intro p hp q hq hpq
    rcases mem_replaceProfile hp with hpd | ⟨hp1, _⟩
    · rcases mem_replaceProfile hq with hqd | ⟨hq1, _⟩
      · rw [hpd, hqd]; exact Or.inr rfl
      · rw [hpd, himg] at hpq
        rw [hpd, himg, hid]
        exact h.owned P hP q hq1 hpq
    · rcases mem_replaceProfile hq with hqd | ⟨hq1, _⟩
      · rw [hqd, himg] at hpq
        rw [hqd, hid]
        exact h.owned p hp1 P hP hpq
      · exact h.owned p hp1 q hq1 hpq
  valid := by
    intro p hp
    rcases mem_replaceProfile hp with hpd | ⟨hp1, _⟩
    · rw [hpd]; exact hv
    · exact h.valid p hp1

theorem removeOldImage_keeps {files files2 : List String} {old : String} {unlinkOk : Bool}
    (h : removeOldImage files old unlinkOk = some files2) :
    ∀ f ∈ files, f ≠ old → f ∈ files2 := by
  intro f hf hne
  unfold removeOldImage at h
  split_ifs at h <;> simp only [Option.some.injEq] at h <;> subst h
  · simpa [List.mem_filter, hne] using hf
  · exact hf
  · exact hf

theorem inv_getProfile {s : ProfileState} (h : ProfileInv s) (u : AuthUser) (newId now : Nat)
    (saveOk : Bool) : ProfileInv (getProfile s u newId now saveOk).2 := by
  unfold getProfile
  cases hf : findProfile s.profiles u.userId with
  | some P => exact h
  | none =>
    cases hs : saveProfile s.profiles (newProfileOnGet u newId now) true now saveOk with
    | none => exact h
    | some r =>
      obtain ⟨doc, ps1⟩ := r
      obtain ⟨hv, _, hdoc, hps⟩ := saveProfile_some hs
      subst hdoc
      simp only [if_true] at hps
      subst hps
      exact h.append_default _ rfl hv

theorem inv_putProfile (L : Lib) {s : ProfileState} (h : ProfileInv s) (u : AuthUser)
    (b : ProfileBody) (newId now : Nat) (saveOk : Bool) :
    ProfileInv (putProfile L s u b newId now saveOk).2 := by
  unfold putProfile
  cases he : profileErrors L b with
  | cons msg rest => exact h
  | nil =>
    simp only
    cases hs : saveProfile s.profiles
        (mergeFields ((findProfile s.profiles u.userId).getD (newProfileOnPut u newId now)) b)
        (findProfile s.profiles u.userId).isNone now saveOk with
    | none => exact h
    | some r =>
      obtain ⟨doc, ps1⟩ := r
      obtain ⟨hv, _, hdoc, hps⟩ := saveProfile_some hs
      subst hdoc
      cases hf : findProfile s.profiles u.userId with
      | none =>
        rw [hf] at hps hv
        simp only [Option.isNone_none, if_true] at hps
        subst hps
        exact h.append_default _ rfl hv
      | some P =>
        rw [hf] at hps hv
        simp only [Option.isNone_some, Bool.false_eq_true, if_false] at hps
        subst hps
        exact h.replace_same_image (findProfile_some hf).1 rfl rfl hv

theorem inv_postImage {s : ProfileState} (h : ProfileInv s) (files1 : List String)
    (fname : String) (hsub : ∀ f ∈ s.files, f ∈ files1) (hnew : imagePath fname ∈ files1)
    (hfresh : imagePath fname ∉ s.files) (u : AuthUser) (now : Nat) (unlinkOk : Bool) :
    ProfileInv (postImage { s with files := files1 } u (some fname) now unlinkOk true).2 := by
  unfold postImage
  simp only
  cases hf : findProfile s.profiles u.userId with
  | none => exact h.more_files files1 hsub
  | some P =>
    simp only
    cases hr : removeOldImage files1 P.profileImage unlinkOk with
    | none => exact h.more_files files1 hsub
    | some files2 =>
      have hPmem := (findProfile_some hf).1
      have hPv : profileValid { P with profileImage := imagePath fname } = true :=
        h.valid P hPmem
      simp only [saveProfile_ok _ _ _ _ hPv, Bool.false_eq_true, if_false]
      have hkeep := removeOldImage_keeps hr
      have hne : imagePath fname ≠ P.profileImage := by
        intro heq
        rcases h.refs P hPmem with hd | hm
        · exact imagePath_ne_default fname (heq.trans hd)
        · exact hfresh (heq ▸ hm)
      have hfar : ∀ q ∈ s.profiles, q.profileImage ≠ imagePath fname := by
        intro q hq heq
        rcases h.refs q hq with hd | hm
        · exact imagePath_ne_default fname (heq.symm.trans hd)
        · exact hfresh (heq ▸ hm)
      refine ⟨?_, ?_, ?_⟩
      · intro q hq
        rcases mem_replaceProfile hq with hqd | ⟨hq1, hid⟩
        · rw [hqd]; exact Or.inr (hkeep _ hnew hne)
        · rcases h.refs q hq1 with hd | hm
          · exact Or.inl hd
          · by_cases hqP : q.profileImage = P.profileImage
            · rcases h.owned q hq1 P hPmem hqP with hd | hd
              · exact Or.inl hd
              · exact absurd hd hid
            · exact Or.inr (hkeep _ (hsub _ hm) hqP)
      · intro p hp q hq hpq
        rcases mem_replaceProfile hp with hpd | ⟨hp1, _⟩
        · rcases mem_replaceProfile hq with hqd | ⟨hq1, _⟩
          · rw [hpd, hqd]; exact Or.inr rfl
          · rw [hpd] at hpq
            exact absurd hpq.symm (hfar q hq1)
        · rcases mem_replaceProfile hq with hqd | ⟨hq1, _⟩
          · rw [hqd] at hpq
            exact absurd hpq (hfar p hp1)
          · exact h.owned p hp1 q hq1 hpq
      · intro p hp
        rcases mem_replaceProfile hp with hpd | ⟨hp1, _⟩
        · rw [hpd]; exact hPv
        · exact h.valid p hp1

theorem inv_step (L : Lib) {s : ProfileState} (h : ProfileInv s) (r : Req)
    (hb : r.benign s) : ProfileInv (step L s r) := by
  cases r with
  | get u newId now saveOk => exact inv_getProfile h u newId now saveOk
  | put u b newId now saveOk => exact inv_putProfile L h u b newId now saveOk
  | image u upload now rnd unlinkOk saveOk =>
    cases upload with
    | none => exact h
    | some file =>
      obtain ⟨hsave, hfresh⟩ := hb
      subst hsave
      simp only [step, replaceImage, uploadSingle]
      cases hfilter : fileFilter file with
      | error msg => exact h
      | ok v =>
        simp only
        by_cases hsize : file.size ≥ fileSizeLimit
        · rw [if_pos hsize]; exact h
        · rw [if_neg hsize]
          refine inv_postImage h _ _ ?_ (List.mem_cons_self _ _) hfresh u now unlinkOk
          intro f hf
          by_cases hfe : f = imagePath (filename now rnd file)
          · rw [hfe]; exact List.mem_cons_self _ _
          · exact List.mem_cons_of_mem _ (by simpa [List.mem_filter, hfe] using hf)

theorem inv_run (L : Lib) (reqs : List Req) :
    ∀ s : ProfileState, ProfileInv s → benignRun L s reqs → ProfileInv (run L s reqs) := by
  induction reqs with
  | nil => intro s h _; exact h
  | cons r rest ih =>
    intro s h hb
    exact ih (step L s r) (inv_step L h r hb.1) hb.2

theorem inv_empty (files : List String) : ProfileInv { profiles := [], files := files } where
  refs := by intro p hp; simp at hp
  owned := by intro p hp; simp at hp
  valid := by intro p hp; simp at hp

/-! ## Upload filter -/

/-- C10: the filter accepts a file named `x.pngz`, whose lower-cased extension
`.pngz` is none of `.png`, `.jpg`, `.jpeg`: the pattern is tested for an
occurrence inside the extension, not for equality with it. -/
theorem fileFilter_accepts_inexact_extension :
    fileFilter { originalname := "x.pngz", mimetype := "image/png", size := 10 } = .ok true ∧
      (extname "x.pngz").map Char.toLower ∉ [".png".data, ".jpg".data, ".jpeg".data] :=
  ⟨rfl, by decide⟩

/-! ## Profile creation on first read -/

/-- C5: for an owner without a profile whose token lacks a name or an e-mail
address, `GET /` builds a document with an empty required text, the save is
rejected by schema validation, and the handler answers with the 500 failure
and stores nothing. -/
theorem getProfile_fails_without_claims (s : ProfileState) (u : AuthUser) (newId now : Nat)
    (saveOk : Bool) (hnone : findProfile s.profiles u.userId = none)
    (hclaims : orEmpty u.name = "" ∨ orEmpty u.email = "") :
    getProfile s u newId now saveOk = (.serverError "Failed to create profile", s) := by
  have hv : profileValid (newProfileOnGet u newId now) = false := by
    rcases hclaims with h | h <;> simp [profileValid, newProfileOnGet, h]
  simp [getProfile, hnone, saveProfile, hv]

/-- The failing request of C5: `bob`, whose token carries no name, on the empty store. -/
theorem getProfile_fails_without_claims_witness :
    getProfile ⟨[], []⟩ bob 7 100 true = (.serverError "Failed to create profile", ⟨[], []⟩) :=
  getProfile_fails_without_claims ⟨[], []⟩ bob 7 100 true rfl (Or.inl rfl)

/-! ## Image replacement -/

/-- C2 (counterexample): after a read, an upload, and a second upload whose
record save fails, the profile of `alice` still names the first image, which
the second request has already unlinked. -/
theorem image_reference_dangles_after_failed_save :
    ¬ imageRefOk (run sampleLib ⟨[], []⟩
      [.get alice 10 5 true, .image alice (some pngUpload) 1 1 true true,
       .image alice (some pngUpload) 2 2 true false]) := by
  decide

/-- C2 (amended): in every state reached from a store without profiles by
profile reads, profile updates and image replacements, where each upload is
stored under a name not in use and the record save of an image replacement is
accepted (reads and updates may fail to save, the old file may fail to
unlink), every profile names the sentinel or a file that exists. -/
theorem image_reference_invariant (L : Lib) (files0 : List String) (reqs : List Req)
    (hb : benignRun L { profiles := [], files := files0 } reqs) :
    imageRefOk (run L { profiles := [], files := files0 } reqs) :=
  (inv_run L reqs _ (inv_empty files0) hb).refs

/-- A benign run with a failed read, a failed unlink and a rejected update in it. -/
theorem image_reference_invariant_witness :
    imageRefOk (run sampleLib { profiles := [], files := [] }
      [.get alice 10 5 false, .get alice 10 6 true, .image alice (some pngUpload) 1 1 true true,
       .image alice (some pngUpload) 2 2 false true, .put alice { age := some 30 } 11 7 false,
       .image alice (some pngUpload) 3 3 true true]) :=
  image_reference_invariant sampleLib [] _ (by decide)

/-- C3 (counterexample): with the old image on disk and the unlink failing,
the handler answers with the 500 failure and the profile keeps the old path. -/
theorem postImage_unlink_failure_example :
    (postImage aliceState alice (some "profile-2-2.png") 9 false true).1
        = .serverError "Failed to upload profile image" ∧
      (findProfile (postImage aliceState alice (some "profile-2-2.png") 9 false true).2.profiles
          alice.userId).map (fun p => p.profileImage) = some (imagePath "profile-1-1.png") := by
  decide

/-- C3 (amended): when the recorded image exists on disk and its unlink fails,
the image handler aborts with the 500 failure and changes no record and no
file; when the recorded image is not on disk there is nothing to unlink, and
the handler saves the new path and answers with it. -/
theorem postImage_unlink_failure_aborts (s : ProfileState) (u : AuthUser) (fname : String)
    (now : Nat) (P : Profile) (hP : findProfile s.profiles u.userId = some P)
    (hne : P.profileImage ≠ "") :
    (P.profileImage ∈ s.files → ∀ saveOk,
      postImage s u (some fname) now false saveOk
        = (.serverError "Failed to upload profile image", s)) ∧
    (P.profileImage ∉ s.files → profileValid P = true →
      postImage s u (some fname) now false true
        = (.ok (imagePath fname),
           { profiles := replaceProfile s.profiles
               { P with profileImage := imagePath fname, updatedAt := now },
             files := s.files })) := by
  constructor
  · intro hold saveOk
    simp [postImage, hP, removeOldImage, hne, hold]
  · intro hold hv
    have hv1 : profileValid { P with profileImage := imagePath fname } = true := hv
    simp [postImage, hP, removeOldImage, hne, hold, saveProfile_ok _ _ _ _ hv1]

/-- The abort of C3 on the sample state. -/
theorem postImage_unlink_failure_aborts_witness :
    postImage aliceState alice (some "profile-2-2.png") 9 false true
      = (.serverError "Failed to upload profile image", aliceState) :=
  (postImage_unlink_failure_aborts aliceState alice "profile-2-2.png" 9 aliceProfile rfl
    (by decide)).1 (by decide) true

/-- C4 (counterexample): a successful image replacement at time 9 leaves the
profile of `alice`, last stamped at time 5, with `updatedAt` 9: a field other
than `profileImage` has changed. -/
theorem postImage_refreshes_updatedAt_example :
    (postImage aliceState alice (some "profile-2-2.png") 9 true true).1
        = .ok (imagePath "profile-2-2.png") ∧
      (findProfile (postImage aliceState alice (some "profile-2-2.png") 9 true true).2.profiles
          alice.userId).map (fun p => p.updatedAt) = some 9 ∧
      aliceProfile.updatedAt = 5 := by
  decide

/-- C4 (amended): for an owner whose profile names a non-empty image path
that exists on disk, a successful run of the image handler returns the new
path, leaves the old file absent, and stores the profile with `profileImage`
the new path and `updatedAt` the current time, every other field as before
(success is what an accepted unlink and save of a valid record give); without
a file the handler answers 400 and changes nothing; for an owner without a
profile it answers 404 and changes no record and no file. -/
theorem postImage_postcondition (s : ProfileState) (u : AuthUser) (fname : String) (now : Nat)
    (P : Profile) (hP : findProfile s.profiles u.userId = some P)
    (hne : P.profileImage ≠ "") (hold : P.profileImage ∈ s.files) :
    (∀ unlinkOk saveOk v s1, postImage s u (some fname) now unlinkOk saveOk = (.ok v, s1) →
      v = imagePath fname ∧ P.profileImage ∉ s1.files ∧
      s1.profiles = replaceProfile s.profiles
        { P with profileImage := imagePath fname, updatedAt := now } ∧
      findProfile s1.profiles u.userId
        = some { P with profileImage := imagePath fname, updatedAt := now }) ∧
    (profileValid P = true →
      (postImage s u (some fname) now true true).1 = .ok (imagePath fname)) ∧
    (∀ unlinkOk saveOk,
      postImage s u none now unlinkOk saveOk = (.badRequest ["No file uploaded"], s)) ∧
    (∀ (w : AuthUser) unlinkOk saveOk, findProfile s.profiles w.userId = none →
      postImage s w (some fname) now unlinkOk saveOk = (.notFound "Profile not found", s)) := by
  refine ⟨?_, ?_, ?_, ?_⟩
  · intro unlinkOk saveOk v s1 h
    unfold postImage at h
    simp only [hP] at h
    cases hr : removeOldImage s.files P.profileImage unlinkOk with
    | none => rw [hr] at h; simp at h
    | some files2 =>
      rw [hr] at h
      simp only at h
      cases hs : saveProfile s.profiles { P with profileImage := imagePath fname } false now
          saveOk with
      | none => rw [hs] at h; simp at h
      | some r =>
        obtain ⟨doc, ps1⟩ := r
        rw [hs] at h
        simp only [Prod.mk.injEq, Resp.ok.injEq] at h
        obtain ⟨hv, hs1⟩ := h
        obtain ⟨_, _, hdoc, hps⟩ := saveProfile_some hs
        simp only [Bool.false_eq_true, if_false] at hps
        subst hs1 hdoc hps
        have hfiles : files2 = s.files.filter (fun f => f != P.profileImage) := by
          unfold removeOldImage at hr
          rw [if_pos hne, if_pos hold] at hr
          split_ifs at hr
          simpa using hr.symm
        refine ⟨hv.symm, ?_, rfl, findProfile_replaceProfile hP rfl (findProfile_some hP).2⟩
        simp [hfiles, List.mem_filter]
  · intro hv
    have hv1 : profileValid { P with profileImage := imagePath fname } = true := hv
    simp [postImage, hP, removeOldImage, hne, hold, saveProfile_ok _ _ _ _ hv1]
  · intro unlinkOk saveOk
    rfl
  · intro w unlinkOk saveOk hw
    simp [postImage, hw]

/-- The postcondition of C4 on the sample state. -/
theorem postImage_postcondition_witness :
    imagePath "profile-1-1.png" ∉
        (postImage aliceState alice (some "profile-2-2.png") 9 true true).2.files ∧
      findProfile (postImage aliceState alice (some "profile-2-2.png") 9 true true).2.profiles
          alice.userId
        = some { aliceProfile with profileImage := imagePath "profile-2-2.png", updatedAt := 9 } :=
  have h := (postImage_postcondition aliceState alice "profile-2-2.png" 9 aliceProfile rfl
    (by decide) (by decide)).1 true true _ _ rfl
  ⟨h.2.1, h.2.2.2⟩

/-! ## Prescription creation -/

theorem check_eq_nil (passes : Bool) (field : String) : check passes field = [] ↔ passes = true := by
  cases passes <;> simp [check]

theorem notEmpty_eq_true {v : Option String} : notEmpty v = true ↔ ¬ missingOrEmpty v := by
  cases v <;> simp [notEmpty, fieldStr, missingOrEmpty]

theorem notEmpty_supplied {v : Option String} (h : notEmpty v = true) :
    v = some (fieldStr v) ∧ fieldStr v ≠ "" := by
  cases v <;> simp_all [notEmpty, fieldStr]

theorem isISO8601_eq_true (L : Lib) {v : Option String} :
    L.isISO8601 (fieldStr v) = true ↔ ¬ notIsoDate L v := by
  cases v <;> simp [fieldStr, notIsoDate, L.isISO8601_empty]

theorem isISO8601_supplied (L : Lib) {v : Option String} (h : L.isISO8601 (fieldStr v) = true) :
    v = some (fieldStr v) ∧ fieldStr v ≠ "" := by
  cases v with
  | none => simp [fieldStr, L.isISO8601_empty] at h
  | some d =>
    refine ⟨rfl, ?_⟩
    intro hd
    simp only [fieldStr, Option.getD_some] at h hd
    rw [hd, L.isISO8601_empty] at h
    exact absurd h (by simp)

theorem prescriptionErrors_eq_nil (L : Lib) (b : PrescriptionBody) :
    prescriptionErrors L b = [] ↔
      notEmpty b.medicationName = true ∧ notEmpty b.doctorName = true ∧
      notEmpty b.patientName = true ∧ L.isISO8601 (fieldStr b.date) = true ∧
      notEmpty b.dosage = true ∧ notEmpty b.instructions = true := by
  simp only [prescriptionErrors, List.append_eq_nil, check_eq_nil, and_assoc]

theorem prescriptionErrors_valid (L : Lib) (b : PrescriptionBody) :
    prescriptionErrors L b = [] ↔ ¬ invalidPrescription L b := by
  rw [prescriptionErrors_eq_nil]
  simp only [invalidPrescription, not_or, notEmpty_eq_true, isISO8601_eq_true]
  tauto

/-- Prescription create on the dates the schema can cast: when a required key
of the body is missing or empty, or the date is not an ISO-8601 date, create
answers with a validation error (status 400 with a non-empty error list) and
leaves the collection as it was; otherwise, the date text casting to a `Date`
and the store accepting the write, the collection gains exactly one document,
owned by the caller, carrying the six supplied values, with `sideEffects` the
supplied value or `"None reported"` when absent, and that document is returned. -/
theorem createPrescription_spec (L : Lib) (ps : List Prescription) (user : ObjectId)
    (b : PrescriptionBody) (newId now : Nat) :
    (invalidPrescription L b → ∀ saveOk, ∃ errors, errors ≠ [] ∧
      createPrescription L ps user b newId now saveOk = (.badRequest errors, ps)) ∧
    (¬ invalidPrescription L b → L.castDate (fieldStr b.date) = true → ∃ doc,
      createPrescription L ps user b newId now true = (.created doc, ps ++ [doc]) ∧
      doc.user = user ∧ doc._id = newId ∧
      b.medicationName = some doc.medicationName ∧ b.doctorName = some doc.doctorName ∧
      b.patientName = some doc.patientName ∧ b.date = some doc.date ∧
      b.dosage = some doc.dosage ∧ b.instructions = some doc.instructions ∧
      doc.sideEffects = some (b.sideEffects.getD "None reported")) := by
  constructor
  · intro hbad saveOk
    unfold createPrescription
    cases he : prescriptionErrors L b with
    | nil => exact absurd hbad ((prescriptionErrors_valid L b).1 he)
    | cons e es => exact ⟨e :: es, by simp, rfl⟩
  · intro hgood hcast
    have he := (prescriptionErrors_valid L b).2 hgood
    obtain ⟨h1, h2, h3, h4, h5, h6⟩ := (prescriptionErrors_eq_nil L b).1 he
    have m := notEmpty_supplied h1
    have d := notEmpty_supplied h2
    have p := notEmpty_supplied h3
    have t := isISO8601_supplied L h4
    have g := notEmpty_supplied h5
    have i := notEmpty_supplied h6
    refine ⟨
      { _id := newId, user := user, medicationName := fieldStr b.medicationName,
        doctorName := fieldStr b.doctorName, patientName := fieldStr b.patientName,
        date := fieldStr b.date, dosage := fieldStr b.dosage,
        instructions := fieldStr b.instructions,
        sideEffects := some (b.sideEffects.getD "None reported"),
        createdAt := now, updatedAt := now },
      ?_, rfl, rfl, m.1, d.1, p.1, t.1, g.1, i.1, rfl⟩
    simp [createPrescription, he, savePrescription, prescriptionValid, hcast,
      m.2, d.2, p.2, t.2, g.2, i.2]

/-- The end-to-end example of the specification: the Amoxicillin body creates
one document with `sideEffects` defaulted, and an empty body is refused. -/
theorem createPrescription_spec_witness :
    createPrescription sampleLib [] 1 amoxicillin 40 3 true
        = (.created amoxicillinDoc, [amoxicillinDoc]) ∧
      (createPrescription sampleLib [amoxicillinDoc] 1 {} 41 4 true).2 = [amoxicillinDoc] := by
  obtain ⟨errors, -, h2⟩ := (createPrescription_spec sampleLib [amoxicillinDoc] 1 {} 41 4).1
    (Or.inl (Or.inl rfl)) true
  refine ⟨by decide, ?_⟩
  rw [h2]

/-- C7: a body whose five required texts are present and non-empty and whose
date passes the ISO-8601 check, but whose date text the schema cannot cast to
a `Date`, is not created: `save()` throws, create answers with the 500
failure `Server error` and the collection is left as it was. -/
theorem createPrescription_uncastable_date (L : Lib) (ps : List Prescription)
    (user : ObjectId) (b : PrescriptionBody) (newId now : Nat) (saveOk : Bool)
    (hvalid : ¬ invalidPrescription L b) (hcast : L.castDate (fieldStr b.date) = false) :
    createPrescription L ps user b newId now saveOk = (.serverError "Server error", ps) := by
  have he := (prescriptionErrors_valid L b).2 hvalid
  simp [createPrescription, he, savePrescription, hcast]

/-- The failing request of C7: the Amoxicillin body dated `2024-W01-1`, a week
date the ISO-8601 check accepts. -/
theorem createPrescription_uncastable_date_witness :
    sampleLib.isISO8601 "2024-W01-1" = true ∧
      createPrescription sampleLib [] 1 weekDated 40 3 true = (.serverError "Server error", []) :=
  ⟨by decide, createPrescription_uncastable_date sampleLib [] 1 weekDated 40 3 true
    (by simp [invalidPrescription, missingOrEmpty, notIsoDate, weekDated, amoxicillin]; decide)
    (by decide)⟩

/-! ## Reminders -/

theorem uniqueIds_eq {α : Type} {id : α → ObjectId} {docs : List α} (h : uniqueIds id docs)
    {a b : α} (ha : a ∈ docs) (hb : b ∈ docs) (hab : id a = id b) : a = b :=
  List.inj_on_of_nodup_map h ha hb hab

theorem findReminder_some {rs : List Reminder} {id user : ObjectId} {R : Reminder}
    (h : findReminder rs id user = some R) : R ∈ rs ∧ R._id = id ∧ R.user = user := by
  unfold findReminder at h
  refine ⟨List.mem_of_find?_eq_some h, ?_⟩
  have := List.find?_some h
  simpa using this

theorem findReminder_owned {rs : List Reminder} {R : Reminder} (hR : R ∈ rs)
    (hids : uniqueIds Reminder._id rs) : findReminder rs R._id R.user = some R := by
  cases hf : findReminder rs R._id R.user with
  | none =>
    unfold findReminder at hf
    have := List.find?_eq_none.1 hf R hR
    simp at this
  | some Q =>
    obtain ⟨hQ, hid, _⟩ := findReminder_some hf
    rw [uniqueIds_eq hids hQ hR hid]

theorem findReminder_foreign {rs : List Reminder} {R : Reminder} {user : ObjectId}
    (hR : R ∈ rs) (hids : uniqueIds Reminder._id rs) (hu : R.user ≠ user) :
    findReminder rs R._id user = none := by
  cases hf : findReminder rs R._id user with
  | none => rfl
  | some Q =>
    obtain ⟨hQ, hid, hQu⟩ := findReminder_some hf
    rw [uniqueIds_eq hids hQ hR hid] at hQu
    exact absurd hQu hu

theorem saveReminder_some {rs rs1 : List Reminder} {r doc : Reminder}
    {isNew castOk saveOk : Bool} (h : saveReminder rs r isNew castOk saveOk = some (doc, rs1)) :
    reminderValid r = true ∧ saveOk = true ∧ doc = r ∧
      rs1 = if isNew then rs ++ [r] else rs.map (fun q => if q._id = r._id then r else q) := by
  unfold saveReminder at h
  by_cases hv : (castOk && reminderValid r && saveOk) = true
  · rw [if_pos hv] at h
    simp only [Option.some.injEq, Prod.mk.injEq] at h
    simp only [Bool.and_eq_true] at hv
    exact ⟨hv.1.2, hv.2, h.1.symm, h.2.symm⟩
  · rw [if_neg hv] at h
    exact absurd h (by simp)

theorem saveReminder_ok (rs : List Reminder) (r : Reminder) (isNew : Bool)
    (hv : reminderValid r = true) :
    saveReminder rs r isNew true true
      = some (r, if isNew then rs ++ [r] else rs.map (fun q => if q._id = r._id then r else q)) := by
  simp [saveReminder, hv]

theorem replace_by_id_eq {rs : List Reminder} {R : Reminder} (hR : R ∈ rs)
    (hids : uniqueIds Reminder._id rs) (doc : Reminder) (hid : doc._id = R._id) :
    rs.map (fun q => if q._id = doc._id then doc else q)
      = rs.map (fun q => if q = R then doc else q) := by
  apply List.map_congr_left
  intro q hq
  by_cases hqR : q = R
  · simp [hqR, hid]
  · have : q._id ≠ doc._id := fun h => hqR (uniqueIds_eq hids hq hR (h.trans hid))
    simp [hqR, this]

theorem reminderErrors_eq_nil (L : Lib) (b : ReminderBody) :
    reminderErrors L b = [] ↔
      notEmpty b.medication = true ∧ notEmpty b.dosage = true ∧
      notEmpty b.time = true ∧ L.isISO8601 (fieldStr b.date) = true := by
  simp only [reminderErrors, List.append_eq_nil, check_eq_nil, and_assoc]

theorem createReminder_cases (L : Lib) (rs : List Reminder) (user : ObjectId) (b : ReminderBody)
    (newId now : Nat) (saveOk : Bool) :
    (∃ e, createReminder L rs user b newId now saveOk = (e, rs) ∧ ∀ doc, e ≠ .created doc) ∨
    ∃ doc, createReminder L rs user b newId now saveOk = (.created doc, rs ++ [doc]) ∧
      doc.status = .pending ∧ doc.takenAt = none := by
  unfold createReminder
  cases he : reminderErrors L b with
  | cons e es => exact Or.inl ⟨_, rfl, by simp⟩
  | nil =>
    simp only
    split
    · next doc rs1 hs =>
      obtain ⟨_, _, hdoc, hrs⟩ := saveReminder_some hs
      simp only [if_true] at hrs
      subst hdoc hrs
      exact Or.inr ⟨_, rfl, rfl, rfl⟩
    · exact Or.inl ⟨_, rfl, by simp⟩

theorem updateReminder_cases (L : Lib) (rs : List Reminder) (id user : ObjectId)
    (b : ReminderBody) (saveOk : Bool) :
    (∃ e, updateReminder L rs id user b saveOk = (e, rs) ∧ ∀ doc, e ≠ .ok doc) ∨
    ∃ old doc, findReminder rs id user = some old ∧
      updateReminder L rs id user b saveOk
        = (.ok doc, rs.map (fun q => if q._id = doc._id then doc else q)) ∧
      doc._id = old._id ∧ doc.status = old.status ∧ doc.takenAt = old.takenAt := by
  unfold updateReminder
  cases he : reminderErrors L b with
  | cons e es => exact Or.inl ⟨_, rfl, by simp⟩
  | nil =>
    simp only
    cases hf : findReminder rs id user with
    | none => exact Or.inl ⟨_, rfl, by simp⟩
    | some old =>
      simp only
      split
      · next doc rs1 hs =>
        obtain ⟨_, _, hdoc, hrs⟩ := saveReminder_some hs
        simp only [Bool.false_eq_true, if_false] at hrs
        subst hdoc hrs
        exact Or.inr ⟨old, _, rfl, rfl, rfl, rfl, rfl⟩
      · exact Or.inl ⟨_, rfl, by simp⟩

theorem takenAtOk_step (L : Lib) (rs : List Reminder) (h : ∀ r ∈ rs, takenAtOk r)
    (req : ReminderReq) : ∀ r ∈ reminderStep L rs req, takenAtOk r := by
  cases req with
  | create user b newId now saveOk =>
    rcases createReminder_cases L rs user b newId now saveOk with ⟨e, h1, _⟩ | ⟨doc, h1, hs, ht⟩
    · simp only [reminderStep, h1]; exact h
    · simp only [reminderStep, h1]
      intro r hr
      rcases List.mem_append.1 hr with hr | hr
      · exact h r hr
      · rw [List.mem_singleton.1 hr]
        intro hne
        exact absurd ht hne
  | update id user b saveOk =>
    rcases updateReminder_cases L rs id user b saveOk with ⟨e, h1, _⟩ | ⟨old, doc, hf, h1, _, hs, ht⟩
    · simp only [reminderStep, h1]; exact h
    · simp only [reminderStep, h1]
      intro r hr
      obtain ⟨q, hq, hqr⟩ := List.mem_map.1 hr
      by_cases hid : q._id = doc._id
      · rw [if_pos hid] at hqr
        subst hqr
        intro hne
        rw [hs]
        exact h old (findReminder_some hf).1 (by rw [← ht]; exact hne)
      · rw [if_neg hid] at hqr
        subst hqr
        exact h q hq
  | taken id user now saveOk =>
    simp only [reminderStep, markTaken]
    cases hf : findReminder rs id user with
    | none => exact h
    | some old =>
      simp only
      split
      · next doc rs1 hs =>
        obtain ⟨_, _, hdoc, hrs⟩ := saveReminder_some hs
        simp only [Bool.false_eq_true, if_false] at hrs
        subst hdoc hrs
        intro r hr
        obtain ⟨q, hq, hqr⟩ := List.mem_map.1 hr
        by_cases hid : q._id = old._id
        · rw [if_pos hid] at hqr
          subst hqr
          intro _
          rfl
        · rw [if_neg hid] at hqr
          subst hqr
          exact h q hq
      · exact h
  | delete id user =>
    simp only [reminderStep, deleteReminder]
    cases hf : findReminder rs id user with
    | none => exact h
    | some old =>
      intro r hr
      exact h r (List.mem_of_mem_erase hr)

theorem takenAtOk_run (L : Lib) (reqs : List ReminderReq) :
    ∀ rs : List Reminder, (∀ r ∈ rs, takenAtOk r) → ∀ r ∈ reminderRun L rs reqs, takenAtOk r := by
  induction reqs with
  | nil => intro rs h; exact h
  | cons req rest ih =>
    intro rs h
    exact ih (reminderStep L rs req) (takenAtOk_step L rs h req)

/-- C8: in every collection reached from the empty one by reminder create,
update, markTaken and delete requests (whatever their outcome), every stored
reminder has `takenAt` absent unless its status is `taken`; a created
reminder has status `pending` and no `takenAt`, and a valid body whose date
text casts to a `Date` is created when the store accepts the write; an update
returns the reminder with the status and `takenAt` it had, and changes the
status and `takenAt` of no stored reminder. -/
theorem reminder_takenAt_invariant (L : Lib) :
    (∀ reqs : List ReminderReq, ∀ r ∈ reminderRun L [] reqs, takenAtOk r) ∧
    (∀ rs user b newId now saveOk doc rs1,
      createReminder L rs user b newId now saveOk = (.created doc, rs1) →
        doc.status = .pending ∧ doc.takenAt = none) ∧
    (∀ rs user b newId now, reminderErrors L b = [] → L.castDate (fieldStr b.date) = true →
      ∃ doc, createReminder L rs user b newId now true = (.created doc, rs ++ [doc])) ∧
    (∀ rs id user b saveOk doc rs1,
      updateReminder L rs id user b saveOk = (.ok doc, rs1) →
        ∃ old, findReminder rs id user = some old ∧
          doc.status = old.status ∧ doc.takenAt = old.takenAt ∧
          (uniqueIds Reminder._id rs →
            rs1.map (fun r => (r.status, r.takenAt)) = rs.map (fun r => (r.status, r.takenAt)))) := by
  refine ⟨?_, ?_, ?_, ?_⟩
  · intro reqs
    exact takenAtOk_run L reqs [] (by intro r hr; simp at hr)
  · intro rs user b newId now saveOk doc rs1 h
    rcases createReminder_cases L rs user b newId now saveOk with ⟨e, h1, hne⟩ | ⟨doc1, h1, hs, ht⟩
    · rw [h1] at h
      simp only [Prod.mk.injEq] at h
      exact absurd h.1 (hne doc)
    · rw [h1] at h
      simp only [Prod.mk.injEq, Resp.created.injEq] at h
      rw [← h.1]
      exact ⟨hs, ht⟩
  · intro rs user b newId now he hcast
    obtain ⟨h1, h2, h3, h4⟩ := (reminderErrors_eq_nil L b).1 he
    have hv : reminderValid
        { _id := newId, user := user, medication := fieldStr b.medication,
          dosage := fieldStr b.dosage, time := fieldStr b.time, date := fieldStr b.date,
          notes := b.notes, status := .pending, takenAt := none, createdAt := now } = true := by
      simp [reminderValid, (notEmpty_supplied h1).2, (notEmpty_supplied h2).2,
        (notEmpty_supplied h3).2, (isISO8601_supplied L h4).2]
    refine ⟨
      { _id := newId, user := user, medication := fieldStr b.medication,
        dosage := fieldStr b.dosage, time := fieldStr b.time, date := fieldStr b.date,
        notes := b.notes, status := .pending, takenAt := none, createdAt := now }, ?_⟩
    simp [createReminder, he, hcast, saveReminder_ok _ _ _ hv]
  · intro rs id user b saveOk doc rs1 h
    rcases updateReminder_cases L rs id user b saveOk with ⟨e, h1, hne⟩ | ⟨old, d, hf, h1, hid, hs, ht⟩
    · rw [h1] at h
      simp only [Prod.mk.injEq] at h
      exact absurd h.1 (hne doc)
    · rw [h1] at h
      simp only [Prod.mk.injEq, Resp.ok.injEq] at h
      obtain ⟨hd, hr⟩ := h
      subst hd hr
      refine ⟨old, hf, hs, ht, ?_⟩
      intro hids
      rw [List.map_map]
      apply List.map_congr_left
      intro q hq
      by_cases hq1 : q._id = d._id
      · have : q = old := uniqueIds_eq hids hq (findReminder_some hf).1 (hq1.trans hid)
        show ((if q._id = d._id then d else q).status, (if q._id = d._id then d else q).takenAt)
          = (q.status, q.takenAt)
        rw [if_pos hq1, hs, ht, this]
      · show ((if q._id = d._id then d else q).status, (if q._id = d._id then d else q).takenAt)
          = (q.status, q.takenAt)
        rw [if_neg hq1]

/-- A run of C8: a reminder is created, marked taken at time 8, then updated. -/
theorem reminder_takenAt_invariant_witness :
    (reminderRun sampleLib [] [.create 1 eveningDose 51 5 true, .taken 51 1 8 true,
        .update 51 1 { eveningDose with notes := some "after dinner" } true]).map
        (fun r => (r.status, r.takenAt)) = [(.taken, some 8)] ∧
      ∀ r ∈ reminderRun sampleLib [] [.create 1 eveningDose 51 5 true, .taken 51 1 8 true,
        .update 51 1 { eveningDose with notes := some "after dinner" } true], takenAtOk r :=
  ⟨by decide, (reminder_takenAt_invariant sampleLib).1 _⟩

/-- C9: for a reminder of the caller, whatever its status, markTaken (the
store accepting the write) returns it with status `taken` and `takenAt` the
current time, every other field as before, and changes no other stored
reminder; a second call at a later time returns the same status with
`takenAt` the later time. -/
theorem markTaken_spec (rs : List Reminder) (R : Reminder) (user : ObjectId) (now later : Nat)
    (hR : R ∈ rs) (hu : R.user = user) (hids : uniqueIds Reminder._id rs)
    (hv : reminderValid R = true) :
    markTaken rs R._id user now true
      = (.ok { R with status := .taken, takenAt := some now },
         rs.map (fun q => if q = R then { R with status := .taken, takenAt := some now } else q)) ∧
    markTaken (markTaken rs R._id user now true).2 R._id user later true
      = (.ok { R with status := .taken, takenAt := some later },
         rs.map (fun q =>
           if q = R then { R with status := .taken, takenAt := some later } else q)) := by
  have first : ∀ (rs : List Reminder) (R : Reminder) (t : Nat), R ∈ rs → R.user = user →
      uniqueIds Reminder._id rs → reminderValid R = true →
      markTaken rs R._id user t true
        = (.ok { R with status := .taken, takenAt := some t },
           rs.map (fun q => if q = R then { R with status := .taken, takenAt := some t } else q)) := by
    intro rs R t hR hu hids hv
    have hf : findReminder rs R._id user = some R := hu ▸ findReminder_owned hR hids
    have hv1 : reminderValid { R with status := .taken, takenAt := some t } = true := hv
    simp only [markTaken, hf, saveReminder_ok _ _ _ hv1, Bool.false_eq_true, if_false]
    exact congrArg (Prod.mk _)
      (replace_by_id_eq hR hids { R with status := .taken, takenAt := some t } rfl)
  refine ⟨first rs R now hR hu hids hv, ?_⟩
  rw [first rs R now hR hu hids hv]
  simp only
  have hR1 : { R with status := .taken, takenAt := some now } ∈
      rs.map (fun q => if q = R then { R with status := .taken, takenAt := some now } else q) :=
    List.mem_map.2 ⟨R, hR, by simp⟩
  have hids1 : uniqueIds Reminder._id
      (rs.map (fun q => if q = R then { R with status := .taken, takenAt := some now } else q)) := by
    unfold uniqueIds at hids ⊢
    rw [List.map_map]
    have : (Reminder._id ∘ fun q =>
        if q = R then { R with status := .taken, takenAt := some now } else q) = Reminder._id := by
      funext q
      by_cases hq : q = R <;> simp [hq]
    rw [this]
    exact hids
  have h2 := first _ { R with status := .taken, takenAt := some now } later hR1 hu hids1 hv
  refine h2.trans ?_
  congr 1
  rw [List.map_map]
  apply List.map_congr_left
  intro q hq
  by_cases hqR : q = R
  · simp [hqR]
  · have hne : q ≠ { R with status := .taken, takenAt := some now } := by
      intro h
      exact hqR (uniqueIds_eq hids hq hR (by rw [h]))
    simp [hqR, hne]

/-- The missed reminder of the sample data, marked taken at time 9 and again at time 12. -/
theorem markTaken_spec_witness :
    markTaken [missedReminder] missedReminder._id 1 9 true
        = (.ok { missedReminder with status := .taken, takenAt := some 9 },
           [{ missedReminder with status := .taken, takenAt := some 9 }]) ∧
      (markTaken (markTaken [missedReminder] missedReminder._id 1 9 true).2
          missedReminder._id 1 12 true).1
        = .ok { missedReminder with status := .taken, takenAt := some 12 } :=
  have h := markTaken_spec [missedReminder] missedReminder 1 9 12 (by simp) rfl
    (by simp [uniqueIds]) (by decide)
  ⟨h.1.trans (by simp), congrArg Prod.fst h.2⟩

/-! ## Profile update -/

theorem assignField_eq {α : Type} (input current : Option α) :
    assignField input current = (input <|> current) := by
  cases input <;> rfl

theorem optionalCheck_eq_nil {α : Type} (v : Option α) (test : α → Bool) (msg : String) :
    optionalCheck v test msg = [] ↔ ∀ a, v = some a → test a = true := by
  cases v with
  | none => simp [optionalCheck]
  | some a => cases h : test a <;> simp [optionalCheck, h]

theorem profileErrors_eq_nil {L : Lib} {b : ProfileBody} (h : profileErrors L b = []) :
    (∀ n, b.name = some n → n ≠ "") ∧ (∀ e, b.email = some e → e ≠ "") ∧
    (∀ g, b.gender = some g → g ∈ genders) ∧ (∀ g, b.bloodGroup = some g → g ∈ bloodGroups) := by
  simp only [profileErrors, List.append_eq_nil, optionalCheck_eq_nil, and_assoc] at h
  obtain ⟨hn, he, _, _, hg, hbg, _, _⟩ := h
  refine ⟨?_, ?_, ?_, ?_⟩
  · intro n hb; simpa using hn n hb
  · intro e hb he0
    have := he e hb
    rw [he0, L.isEmail_empty] at this
    exact absurd this (by simp)
  · intro g hb; simpa using hg g hb
  · intro g hb; simpa using hbg g hb

theorem mergeFields_valid {L : Lib} {b : ProfileBody} {P : Profile}
    (hb : profileErrors L b = []) (hv : profileValid P = true) :
    profileValid (mergeFields P b) = true := by
  obtain ⟨hn, he, hg, hbg⟩ := profileErrors_eq_nil hb
  simp only [profileValid, Bool.and_eq_true, decide_eq_true_eq] at hv ⊢
  obtain ⟨⟨⟨hPn, hPe⟩, hPg⟩, hPb⟩ := hv
  refine ⟨⟨⟨?_, ?_⟩, ?_⟩, ?_⟩
  · show b.name.getD P.name ≠ ""
    cases hbn : b.name with
    | none => exact hPn
    | some n => exact hn n hbn
  · show b.email.getD P.email ≠ ""
    cases hbe : b.email with
    | none => exact hPe
    | some e => exact he e hbe
  · show enumOk genders (assignField b.gender P.gender) = true
    cases hbg1 : b.gender with
    | none => exact hPg
    | some g => simpa [assignField, enumOk] using hg g hbg1
  · show enumOk bloodGroups (assignField b.bloodGroup P.bloodGroup) = true
    cases hbb : b.bloodGroup with
    | none => exact hPb
    | some g => simpa [assignField, enumOk] using hbg g hbb

/-- C6: for an owner with a stored, schema-valid profile `P` and a body that
passes validation, update (the store accepting the write) stores and returns
a document in which each of the 21 listed fields is the body value when the
key is present and the value of `P` when it is absent, while `profileImage`,
`user`, `createdAt` and `_id` are those of `P` whatever the body carries. -/
theorem putProfile_merges (L : Lib) (s : ProfileState) (u : AuthUser) (b : ProfileBody)
    (newId now : Nat) (P : Profile) (hP : findProfile s.profiles u.userId = some P)
    (hb : profileErrors L b = []) (hv : profileValid P = true) :
    ∃ doc, putProfile L s u b newId now true
        = (.ok doc, { s with profiles := replaceProfile s.profiles doc }) ∧
      findProfile (replaceProfile s.profiles doc) u.userId = some doc ∧
      doc.name = b.name.getD P.name ∧ doc.email = b.email.getD P.email ∧
      doc.phone = (b.phone <|> P.phone) ∧ doc.age = (b.age <|> P.age) ∧
      doc.gender = (b.gender <|> P.gender) ∧ doc.bloodGroup = (b.bloodGroup <|> P.bloodGroup) ∧
      doc.height = (b.height <|> P.height) ∧ doc.weight = (b.weight <|> P.weight) ∧
      doc.address = (b.address <|> P.address) ∧ doc.city = (b.city <|> P.city) ∧
      doc.province = (b.province <|> P.province) ∧ doc.cnic = (b.cnic <|> P.cnic) ∧
      doc.medicalConditions = (b.medicalConditions <|> P.medicalConditions) ∧
      doc.currentMedications = (b.currentMedications <|> P.currentMedications) ∧
      doc.pastSurgeries = (b.pastSurgeries <|> P.pastSurgeries) ∧
      doc.foodAllergies = (b.foodAllergies <|> P.foodAllergies) ∧
      doc.drugAllergies = (b.drugAllergies <|> P.drugAllergies) ∧
      doc.otherAllergies = (b.otherAllergies <|> P.otherAllergies) ∧
      doc.emergencyContactName = (b.emergencyContactName <|> P.emergencyContactName) ∧
      doc.emergencyContactRelationship
        = (b.emergencyContactRelationship <|> P.emergencyContactRelationship) ∧
      doc.emergencyContactPhone = (b.emergencyContactPhone <|> P.emergencyContactPhone) ∧
      doc.profileImage = P.profileImage ∧ doc.user = P.user ∧
      doc.createdAt = P.createdAt ∧ doc._id = P._id := by
  have hm := mergeFields_valid hb hv
  refine ⟨{ mergeFields P b with updatedAt := now }, ?_, ?_, rfl, rfl,
    assignField_eq _ _, assignField_eq _ _, assignField_eq _ _, assignField_eq _ _,
    assignField_eq _ _, assignField_eq _ _, assignField_eq _ _, assignField_eq _ _,
    assignField_eq _ _, assignField_eq _ _, assignField_eq _ _, assignField_eq _ _,
    assignField_eq _ _, assignField_eq _ _, assignField_eq _ _, assignField_eq _ _,
    assignField_eq _ _, assignField_eq _ _, assignField_eq _ _, rfl, rfl, rfl, rfl⟩
  · simp [putProfile, hb, hP, saveProfile_ok _ _ _ _ hm]
  · exact findProfile_replaceProfile hP rfl (findProfile_some hP).2

/-- An update of C6 on the sample state: the body sets `age` and `city` and
carries a `profileImage` key, which is ignored. -/
theorem putProfile_merges_witness :
    ∃ doc, putProfile sampleLib aliceState alice
          { age := some 30, city := some "Lahore", profileImage := some "/etc/passwd" } 11 7 true
        = (.ok doc, { aliceState with profiles := [doc] }) ∧
      doc.age = some 30 ∧ doc.city = some "Lahore" ∧ doc.name = "Alice" ∧
      doc.profileImage = aliceProfile.profileImage := by
  obtain ⟨doc, h, -, hname, -, -, hage, -, -, -, -, -, hcity, -, -, -, -, -, -, -, -, -, -, -,
      himg, -, -, hid⟩ :=
    putProfile_merges sampleLib aliceState alice
      { age := some 30, city := some "Lahore", profileImage := some "/etc/passwd" } 11 7
      aliceProfile rfl (by decide) (by decide)
  refine ⟨doc, ?_, hage, hcity, hname, himg⟩
  rw [h]
  simp [aliceState, replaceProfile, hid]

/-! ## Owner isolation -/

theorem findPrescription_some {ps : List Prescription} {id user : ObjectId} {R : Prescription}
    (h : findPrescription ps id user = some R) : R ∈ ps ∧ R._id = id ∧ R.user = user := by
  unfold findPrescription at h
  refine ⟨List.mem_of_find?_eq_some h, ?_⟩
  have := List.find?_some h
  simpa using this

theorem findPrescription_foreign {ps : List Prescription} {R : Prescription} {user : ObjectId}
    (hR : R ∈ ps) (hids : uniqueIds Prescription._id ps) (hu : R.user ≠ user) :
    findPrescription ps R._id user = none := by
  cases hf : findPrescription ps R._id user with
  | none => rfl
  | some Q =>
    obtain ⟨hQ, hid, hQu⟩ := findPrescription_some hf
    rw [uniqueIds_eq hids hQ hR hid] at hQu
    exact absurd hQu hu

theorem mem_listPrescriptions {L : Lib} {ps : List Prescription} {user : ObjectId}
    {R : Prescription} (h : R ∈ listPrescriptions L ps user) : R ∈ ps ∧ R.user = user := by
  unfold listPrescriptions at h
  have := (List.perm_insertionSort _ _).mem_iff.1 h
  simpa [List.mem_filter] using this

theorem mem_listReminders {L : Lib} {rs : List Reminder} {user : ObjectId}
    {M : Reminder} (h : M ∈ listReminders L rs user) : M ∈ rs ∧ M.user = user := by
  unfold listReminders at h
  have := (List.perm_insertionSort _ _).mem_iff.1 h
  simpa [List.mem_filter] using this

/-- C1 (counterexample): owner 2 sends an update with an empty body for the
identifier of a prescription of owner 1; the answer is the validation error
(status 400), not NotFound. -/
theorem foreign_update_with_invalid_body :
    amoxicillinDoc.user ≠ 2 ∧
      updatePrescription sampleLib [amoxicillinDoc] amoxicillinDoc._id 2 {} 9 true
        = (.badRequest ["medicationName", "doctorName", "patientName", "date", "dosage",
            "instructions"], [amoxicillinDoc]) := by
  decide

/-- C1 (amended): with identifiers unique in each collection and owners
`O1 ≠ O2`, for every prescription and every reminder owned by `O1`: each of
the id-addressed operations of `O2` on its identifier leaves the collection
as it was and answers NotFound, except that an update whose body fails
validation, and a share whose recipient is no e-mail address, answer with the
validation error instead (validation runs before the lookup); no message is
handed to the mail transport; and the list of `O2` does not contain the record. -/
theorem owner_isolation (L : Lib) (ps : List Prescription) (rs : List Reminder)
    (O1 O2 : ObjectId) (hne : O1 ≠ O2) (hps : uniqueIds Prescription._id ps)
    (hrs : uniqueIds Reminder._id rs) :
    (∀ R ∈ ps, R.user = O1 →
      (∀ b now saveOk, updatePrescription L ps R._id O2 b now saveOk
        = (if prescriptionErrors L b = [] then .notFound "Prescription not found"
           else .badRequest (prescriptionErrors L b), ps)) ∧
      deletePrescription ps R._id O2 = (.notFound "Prescription not found", ps) ∧
      (∀ recipientEmail mailOk, sharePrescription L ps R._id O2 recipientEmail mailOk
        = (if L.isEmail (fieldStr recipientEmail) = true then .notFound "Prescription not found"
           else .badRequest ["recipientEmail"], ps, none)) ∧
      R ∉ listPrescriptions L ps O2) ∧
    (∀ M ∈ rs, M.user = O1 →
      (∀ b saveOk, updateReminder L rs M._id O2 b saveOk
        = (if reminderErrors L b = [] then .notFound "Reminder not found"
           else .badRequest (reminderErrors L b), rs)) ∧
      (∀ now saveOk, markTaken rs M._id O2 now saveOk = (.notFound "Reminder not found", rs)) ∧
      deleteReminder rs M._id O2 = (.notFound "Reminder not found", rs) ∧
      M ∉ listReminders L rs O2) := by
  constructor
  · intro R hR hu
    have hf : findPrescription ps R._id O2 = none :=
      findPrescription_foreign hR hps (by rw [hu]; exact hne)
    refine ⟨?_, ?_, ?_, ?_⟩
    · intro b now saveOk
      unfold updatePrescription
      cases he : prescriptionErrors L b with
      | nil => simp [hf]
      | cons e es => simp
    · simp [deletePrescription, hf]
    · intro recipientEmail mailOk
      unfold sharePrescription
      by_cases hm : L.isEmail (fieldStr recipientEmail) = true
      · simp [hm, hf]
      · simp [hm]
    · intro hmem
      exact hne ((hu.symm.trans (mem_listPrescriptions hmem).2))
  · intro M hM hu
    have hf : findReminder rs M._id O2 = none :=
      findReminder_foreign hM hrs (by rw [hu]; exact hne)
    refine ⟨?_, ?_, ?_, ?_⟩
    · intro b saveOk
      unfold updateReminder
      cases he : reminderErrors L b with
      | nil => simp [hf]
      | cons e es => simp
    · intro now saveOk
      simp [markTaken, hf]
    · simp [deleteReminder, hf]
    · intro hmem
      exact hne ((hu.symm.trans (mem_listReminders hmem).2))

/-- Owner 2 against the sample prescription and reminder of owner 1: a valid
update is answered NotFound, and the reminder cannot be marked taken. -/
theorem owner_isolation_witness :
    updatePrescription sampleLib [amoxicillinDoc] amoxicillinDoc._id 2 amoxicillin 9 true
        = (.notFound "Prescription not found", [amoxicillinDoc]) ∧
      markTaken [missedReminder] missedReminder._id 2 9 true
        = (.notFound "Reminder not found", [missedReminder]) :=
  have h := owner_isolation sampleLib [amoxicillinDoc] [missedReminder] 1 2 (by decide)
    (by simp [uniqueIds]) (by simp [uniqueIds])
  ⟨((h.1 amoxicillinDoc (by simp) rfl).1 amoxicillin 9 true).trans (by decide),
    (h.2 missedReminder (by simp) rfl).2.1 9 true⟩

/-! ## Profile creation with identity claims -/

theorem findProfile_append_new {ps : List Profile} {user : ObjectId} (doc : Profile)
    (hnone : findProfile ps user = none) (hu : doc.user = user) :
    findProfile (ps ++ [doc]) user = some doc := by
  unfold findProfile at hnone ⊢
  rw [List.find?_append, hnone]
  simp [List.find?, hu]

/-- For an owner without a profile whose token carries a non-empty name and
e-mail address, `GET /` (the store accepting the write) stores and returns one
new profile seeded from the token, with the sentinel image and empty free
texts; a second `GET /` returns that same document and stores nothing, and
the collection then holds exactly one profile of the owner. -/
theorem getProfile_creates_once (s : ProfileState) (u : AuthUser) (newId now newId2 later : Nat)
    (saveOk2 : Bool) (hnone : findProfile s.profiles u.userId = none)
    (hn : orEmpty u.name ≠ "") (he : orEmpty u.email ≠ "") :
    getProfile s u newId now true
      = (.ok (newProfileOnGet u newId now),
         { s with profiles := s.profiles ++ [newProfileOnGet u newId now] }) ∧
    getProfile (getProfile s u newId now true).2 u newId2 later saveOk2
      = (.ok (newProfileOnGet u newId now), (getProfile s u newId now true).2) ∧
    ((getProfile s u newId now true).2.profiles.filter
      (fun p => p.user == u.userId)).length = 1 := by
  have hv : profileValid (newProfileOnGet u newId now) = true := by
    simp [profileValid, newProfileOnGet, enumOk, hn, he]
  have h1 : getProfile s u newId now true
      = (.ok (newProfileOnGet u newId now),
         { s with profiles := s.profiles ++ [newProfileOnGet u newId now] }) := by
    simp only [getProfile, hnone, saveProfile_ok _ _ _ _ hv]
    rfl
  refine ⟨h1, ?_, ?_⟩
  · rw [h1]
    simp [getProfile, findProfile_append_new (newProfileOnGet u newId now) hnone rfl]
  · rw [h1]
    have hall : s.profiles.filter (fun p => p.user == u.userId) = [] := by
      rw [List.filter_eq_nil_iff]
      intro p hp
      have := List.find?_eq_none.1 hnone p hp
      simpa using this
    simp [List.filter_append, hall, newProfileOnGet]

/-- The owner `alice` on the empty store: created once, found afterwards. -/
theorem getProfile_creates_once_witness :
    (getProfile (getProfile ⟨[], []⟩ alice 10 5 true).2 alice 11 6 true).1
      = .ok (newProfileOnGet alice 10 5) :=
  congrArg Prod.fst
    (getProfile_creates_once ⟨[], []⟩ alice 10 5 11 6 true rfl (by decide) (by decide)).2.1

end EaseAix
